import Mathlib

/-!
Shallow embedding of `hearts_gym/utils/logic.py`: the trick-outcome
estimator (`gets_trick`), the combinatorial win probability
(`p_gets_trick`), the partition filters (`filter_cards_above`,
`filter_cards_below`) and the single-round ownership inference
(`Ownerships.from_trick`).  Python floats are modelled as exact
rationals (all arithmetic here involves only small integer ratios),
Python exceptions as `Except` errors, and the failing `assert` in
`from_trick` as an `Option` result.
-/

namespace HeartsGym

/-- Modelled from the spec: the card representation lives in
`hearts_gym/envs/card_deck.py`, which is not part of the sources here.
Per the spec a card is the pair (suit, rank), immutable, compared by
value equality, with ranks totally ordered by their numeric value. -/
structure Card where
  suit : Nat
  rank : Nat
deriving DecidableEq, Repr

/-- Modelled from the spec: four suits (clubs/diamonds/hearts/spades). -/
def Card.NUM_SUITS : Nat := 4

/-- Modelled from the spec: thirteen ranks (2..10, J, Q, K, A). -/
def Card.NUM_RANKS : Nat := 13

/-- `Certainty.NEVER`: the probability-0 sentinel. -/
def NEVER : ℚ := 0

/-- `Certainty.ALWAYS`: the probability-1 sentinel. -/
def ALWAYS : ℚ := 1

/-- The fixed 52-card deck enumeration, as built at module level:
`Card(s, r) for s in range(NUM_SUITS) for r in range(NUM_RANKS)`. -/
def CARDS : List Card :=
  (List.range Card.NUM_SUITS).flatMap
    (fun s => (List.range Card.NUM_RANKS).map (fun r => ⟨s, r⟩))

/-- The Python exception classes raised by `p_gets_trick`. -/
inductive PyError where
  | valueError
  | zeroDivisionError
deriving DecidableEq, Repr

instance {ε α : Type} [DecidableEq ε] [DecidableEq α] : DecidableEq (Except ε α) :=
  fun x y =>
    match x, y with
    | .ok a, .ok b =>
      if h : a = b then .isTrue (by rw [h]) else .isFalse (by intro hc; cases hc; exact h rfl)
    | .error a, .error b =>
      if h : a = b then .isTrue (by rw [h]) else .isFalse (by intro hc; cases hc; exact h rfl)
    | .ok _, .error _ => .isFalse (by intro hc; cases hc)
    | .error _, .ok _ => .isFalse (by intro hc; cases hc)

/-- `filter_cards_above(cards, ref_suit, ref_rank)`: all elements with
the same suit and a strictly higher rank, in order. -/
def filter_cards_above (cards : List Card) (ref_suit ref_rank : Nat) : List Card :=
  cards.filter (fun c => decide (c.suit = ref_suit ∧ ref_rank < c.rank))

/-- `filter_cards_below(cards, ref_suit, ref_rank)`: all elements with
a different suit or a strictly lower rank, in order. -/
def filter_cards_below (cards : List Card) (ref_suit ref_rank : Nat) : List Card :=
  cards.filter (fun c => decide (¬ c.suit = ref_suit ∨ c.rank < ref_rank))

/-- `p_gets_trick(n_others_higher, n_others_lower, n_incoming)`:
raises `ValueError` when `n_incoming == 0`; then divides
`n_others_lower / (n_others_lower + n_others_higher)` (a
`ZeroDivisionError` when both counts are zero); returns the sentinels
exactly at the edges, else the power `p_lower ** n_incoming`. -/
def p_gets_trick (n_others_higher n_others_lower : Nat) (n_incoming : ℤ) :
    Except PyError ℚ :=
  if n_incoming = 0 then .error .valueError
  else if n_others_lower + n_others_higher = 0 then .error .zeroDivisionError
  else
    let p_lower : ℚ := (n_others_lower : ℚ) / ((n_others_lower : ℚ) + (n_others_higher : ℚ))
    if p_lower = 1 then .ok ALWAYS
    else if p_lower = 0 then .ok NEVER
    else .ok (p_lower ^ n_incoming)

/-- The lead suit used by `gets_trick`: the first table card's suit,
or the candidate's own suit when the table is empty. -/
def lead_suit (card : Card) (table_cards : List Card) : Nat :=
  match table_cards with
  | [] => card.suit
  | t :: _ => t.suit

/-- `gets_trick(card, table_cards, cards_by_others)`: the case chain of
the source — suit mismatch, beaten on the table, last card of the
trick, then the opponent-threat analysis.  The external
`HeartsGame.get_penalty` lookup is a parameter (`penalty`), as the game
class is an external collaborator. -/
def gets_trick (penalty : Card → ℚ) (card : Card)
    (table_cards cards_by_others : List Card) : Except PyError (ℚ × ℚ) :=
  if card.suit ≠ lead_suit card table_cards then .ok (NEVER, 0)
  else if filter_cards_above table_cards card.suit card.rank ≠ [] then .ok (NEVER, 0)
  else if table_cards.length = 3 then .ok (ALWAYS, 0)
  else
    let n_incoming : ℤ := 4 - (table_cards.length : ℤ) - 1
    let other_cards_above := filter_cards_above cards_by_others card.suit card.rank
    let other_cards_below := filter_cards_below cards_by_others card.suit card.rank
    let penalties_below := other_cards_below.map penalty
    let expected_incoming_penalty : ℚ :=
      if penalties_below ≠ [] then
        (penalties_below.sum / (penalties_below.length : ℚ)) * (n_incoming : ℚ)
      else 0
    if other_cards_above = [] then .ok (ALWAYS, expected_incoming_penalty)
    else if cards_by_others.length < 4 then .ok (NEVER, 0)
    else (p_gets_trick other_cards_above.length other_cards_below.length n_incoming).map
      (fun p => (p, expected_incoming_penalty))

/-- The spec's formula for the expected incoming penalty, transcribed
from its words for comparison with `gets_trick`: the arithmetic mean
of the penalty values of the `below` cards times
`nIncoming = 4 - len(tableCards) - 1`, and 0 when `below` is empty. -/
def spec_expected_incoming_penalty (penalty : Card → ℚ) (card : Card)
    (table_cards cards_by_others : List Card) : ℚ :=
  let below := filter_cards_below cards_by_others card.suit card.rank
  if below = [] then 0
  else ((below.map penalty).sum / (below.length : ℚ))
        * ((4 : ℚ) - (table_cards.length : ℚ) - 1)

namespace Ownerships

/-- The per-card row of the ownership matrix built by `from_trick`:
`[1,0,0,0]` for hand cards, all-zero for table or played cards,
`[0, 1/3, 1/3, 1/3]` otherwise. -/
def rowOf (hand trick played : List Card) (card : Card) : List ℚ :=
  if card ∈ hand then [1, 0, 0, 0]
  else if card ∈ trick ∨ card ∈ played then [0, 0, 0, 0]
  else [0, 1/3, 1/3, 1/3]

/-- The `assert played | table | hand | unseen == set(CARDS)` check:
the union of the four groups equals the full deck as a set. -/
def unionIsDeck (hand trick played unseen : List Card) : Bool :=
  ((played ++ trick ++ hand ++ unseen).all (fun c => decide (c ∈ CARDS)))
    && (CARDS.all (fun c => decide (c ∈ played ++ trick ++ hand ++ unseen)))

/-- `Ownerships.from_trick(hand, trick, played, unseen)`: asserts the
union check, then builds the 52-row ownership matrix; `none` models
the assertion error. -/
def from_trick (hand trick played unseen : List Card) : Option (List (List ℚ)) :=
  if unionIsDeck hand trick played unseen then
    some (CARDS.map (rowOf hand trick played))
  else none

end Ownerships

/-- Whenever the incoming count is nonzero and at least one card sits
above the reference, `p_gets_trick` succeeds. -/
theorem p_gets_trick_ok (h l : Nat) (n : ℤ) (hn : n ≠ 0) (hd : h ≠ 0) :
    ∃ p : ℚ, p_gets_trick h l n = .ok p := by
  unfold p_gets_trick
  rw [if_neg hn, if_neg (by omega)]
  dsimp only
  split
  · exact ⟨_, rfl⟩
  · split
    · exact ⟨_, rfl⟩
    · exact ⟨_, rfl⟩

/-- Any successful result of `p_gets_trick` with a positive incoming
count lies in the unit interval, and is either a sentinel or a genuine
power of a ratio strictly between 0 and 1. -/
theorem p_gets_trick_ok_bounds (h l : Nat) (n : ℤ) (hn : 1 ≤ n) (p : ℚ)
    (hp : p_gets_trick h l n = .ok p) :
    (0 ≤ p ∧ p ≤ 1)
    ∧ (p = 0 ∨ p = 1
        ∨ ∃ q : ℚ, ∃ m : Nat, 0 < q ∧ q < 1 ∧ 1 ≤ m ∧ p = q ^ m) := by
  unfold p_gets_trick at hp
  rw [if_neg (by omega)] at hp
  by_cases hd : l + h = 0
  · rw [if_pos hd] at hp; cases hp
  rw [if_neg hd] at hp
  dsimp only at hp
  set q : ℚ := (l : ℚ) / ((l : ℚ) + (h : ℚ)) with hq
  have hden : (0 : ℚ) < (l : ℚ) + (h : ℚ) := by
    have h1 : (0 : ℚ) < ((l + h : ℕ) : ℚ) := by
      exact_mod_cast Nat.pos_of_ne_zero hd
    simpa [Nat.cast_add] using h1
  have hq0 : 0 ≤ q := div_nonneg (by positivity) (le_of_lt hden)
  have hq1 : q ≤ 1 := by
    rw [hq, div_le_one hden]
    exact le_add_of_nonneg_right (by positivity)
  split at hp
  · cases hp
    refine ⟨⟨by norm_num [ALWAYS], by norm_num [ALWAYS]⟩, ?_⟩
    exact Or.inr (Or.inl (by norm_num [ALWAYS]))
  · rename_i hne1
    split at hp
    · cases hp
      exact ⟨⟨by norm_num [NEVER], by norm_num [NEVER]⟩, Or.inl (by norm_num [NEVER])⟩
    · rename_i hne0
      cases hp
      have hqlt1 : q < 1 := lt_of_le_of_ne hq1 hne1
      have hqgt0 : 0 < q := lt_of_le_of_ne hq0 (Ne.symm hne0)
      have hnn : q ^ n = q ^ n.toNat := by
        rw [← zpow_natCast q n.toNat, Int.toNat_of_nonneg (by omega)]
      refine ⟨⟨?_, ?_⟩, Or.inr (Or.inr ⟨q, n.toNat, hqgt0, hqlt1, by omega, hnn⟩)⟩
      · rw [hnn]; exact pow_nonneg hq0 _
      · rw [hnn]; exact pow_le_one₀ hq0 (le_of_lt hqlt1)

/-- Claim C5: for every `n_incoming >= 1`, `p_gets_trick` with
`n_others_lower == 0` and `n_others_higher > 0` returns exactly NEVER,
and with `n_others_higher == 0` and `n_others_lower > 0` returns
exactly ALWAYS — the sentinel values themselves. -/
theorem C5_p_gets_trick_sentinels (h l : Nat) (n : ℤ) (hn : 1 ≤ n) :
    (l = 0 → 0 < h → p_gets_trick h l n = .ok NEVER)
    ∧ (h = 0 → 0 < l → p_gets_trick h l n = .ok ALWAYS) := by
  have hn0 : ¬ n = 0 := by omega
  constructor
  · rintro rfl hh
    have hh0 : h ≠ 0 := by omega
    simp [p_gets_trick, hn0, hh0]
  · rintro rfl hl
    have hl0 : l ≠ 0 := by omega
    have hcast : ((l : ℚ)) ≠ 0 := Nat.cast_ne_zero.mpr hl0
    simp [p_gets_trick, hn0, hl0, div_self hcast]

theorem C5_witness :
    p_gets_trick 3 0 2 = .ok NEVER ∧ p_gets_trick 0 3 2 = .ok ALWAYS :=
  ⟨(C5_p_gets_trick_sentinels 3 0 2 (by decide)).1 rfl (by decide),
   (C5_p_gets_trick_sentinels 0 3 2 (by decide)).2 rfl (by decide)⟩

/-- Claim C6: `p_gets_trick` raises `ValueError` exactly when
`n_incoming == 0`; no other input makes its own validation raise a
`ValueError`. -/
theorem C6_valueerror_iff (h l : Nat) (n : ℤ) :
    p_gets_trick h l n = .error .valueError ↔ n = 0 := by
  unfold p_gets_trick
  split
  · rename_i hn; simp [hn]
  · rename_i hn
    split
    · simp [hn]
    · dsimp only
      split
      · simp [hn]
      · split <;> simp [hn]

/-- Claim C8: with both card counts zero, `p_gets_trick` fails with a
division-by-zero error for every nonzero incoming count — a failure
distinct from the documented `ValueError`. -/
theorem C8_div_by_zero (n : ℤ) (hn : 1 ≤ n) :
    p_gets_trick 0 0 n = .error .zeroDivisionError
    ∧ PyError.zeroDivisionError ≠ PyError.valueError := by
  have hn0 : ¬ n = 0 := by omega
  exact ⟨by simp [p_gets_trick, hn0], by simp⟩

theorem C8_witness :
    (1 : ℤ) ≤ 1
    ∧ (p_gets_trick 0 0 1 = .error .zeroDivisionError
        ∧ PyError.zeroDivisionError ≠ PyError.valueError) :=
  ⟨by decide, C8_div_by_zero 1 (by decide)⟩

/-- Claim C2 (counterexample): a collection holding a card with the
reference suit and exactly the reference rank is NOT partitioned by the
two filters — such a card lands in neither subset, so the multiset
union of the two outputs differs from the input. -/
theorem C2_counterexample :
    ((filter_cards_above [(⟨0, 0⟩ : Card)] 0 0 : Multiset Card)
        + (filter_cards_below [(⟨0, 0⟩ : Card)] 0 0 : Multiset Card))
      ≠ (([(⟨0, 0⟩ : Card)] : List Card) : Multiset Card) := by
  have ha : filter_cards_above [(⟨0, 0⟩ : Card)] 0 0 = [] := by decide
  have hb : filter_cards_below [(⟨0, 0⟩ : Card)] 0 0 = [] := by decide
  simp [ha, hb]

/-- Claim C2 (amended): for a fixed reference suit and rank,
`filter_cards_above` and `filter_cards_below` partition every
collection that contains no card of the reference suit with exactly
the reference rank: the multiset union of the two outputs equals the
input and the outputs are disjoint. -/
theorem C2_filters_partition (cards : List Card) (s r : Nat)
    (h : ∀ c ∈ cards, ¬(c.suit = s ∧ c.rank = r)) :
    ((filter_cards_above cards s r : Multiset Card)
        + (filter_cards_below cards s r : Multiset Card)
      = (cards : Multiset Card))
    ∧ (∀ c ∈ filter_cards_above cards s r, c ∉ filter_cards_below cards s r) := by
  constructor
  · have heq : filter_cards_below cards s r
        = cards.filter (fun c => !(decide (c.suit = s ∧ r < c.rank))) := by
      unfold filter_cards_below
      apply List.filter_congr
      intro c hc
      have hcc := h c hc
      rw [← decide_not, decide_eq_decide]
      by_cases hs : c.suit = s
      · simp only [hs, not_true_eq_false, false_or, not_and, true_implies] at hcc ⊢
        constructor
        · intro h1 h2; omega
        · intro h1
          have : c.rank ≠ r := fun hr => hcc (by omega)
          omega
      · simp [hs]
    have hperm :
        List.Perm
          (filter_cards_above cards s r
            ++ cards.filter (fun c => !(decide (c.suit = s ∧ r < c.rank))))
          cards :=
      List.filter_append_perm _ cards
    rw [heq, Multiset.coe_add]
    exact Multiset.coe_eq_coe.mpr hperm
  · intro c hca hcb
    unfold filter_cards_above at hca
    unfold filter_cards_below at hcb
    rw [List.mem_filter] at hca hcb
    have h1 := of_decide_eq_true hca.2
    have h2 := of_decide_eq_true hcb.2
    rcases h2 with h2 | h2
    · exact h2 h1.1
    · omega

theorem C2_witness :
    (∀ c ∈ [(⟨0, 1⟩ : Card), ⟨1, 0⟩], ¬(c.suit = 0 ∧ c.rank = 0))
    ∧ (((filter_cards_above [(⟨0, 1⟩ : Card), ⟨1, 0⟩] 0 0 : Multiset Card)
          + (filter_cards_below [(⟨0, 1⟩ : Card), ⟨1, 0⟩] 0 0 : Multiset Card)
        = (([(⟨0, 1⟩ : Card), ⟨1, 0⟩] : List Card) : Multiset Card))
        ∧ (∀ c ∈ filter_cards_above [(⟨0, 1⟩ : Card), ⟨1, 0⟩] 0 0,
            c ∉ filter_cards_below [(⟨0, 1⟩ : Card), ⟨1, 0⟩] 0 0)) :=
  ⟨by decide, C2_filters_partition [(⟨0, 1⟩ : Card), ⟨1, 0⟩] 0 0 (by decide)⟩

/-- The Boolean assertion check of `from_trick` holds exactly when the
union of the four groups equals the deck as a set. -/
theorem unionIsDeck_eq_true_iff (hand trick played unseen : List Card) :
    Ownerships.unionIsDeck hand trick played unseen = true
      ↔ ∀ c : Card,
          (c ∈ played ∨ c ∈ trick ∨ c ∈ hand ∨ c ∈ unseen) ↔ c ∈ CARDS := by
  unfold Ownerships.unionIsDeck
  simp only [Bool.and_eq_true, List.all_eq_true, decide_eq_true_eq, List.mem_append]
  constructor
  · rintro ⟨h1, h2⟩ c
    constructor
    · intro hc; exact h1 c (by tauto)
    · intro hc; have := h2 c hc; tauto
  · intro hiff
    constructor
    · intro c hc; exact (hiff c).mp (by tauto)
    · intro c hc; have := (hiff c).mpr hc; tauto

/-- Claim C3 (counterexample): `from_trick` accepts four groups that
overlap, as long as their union covers the deck — here the card (0,0)
is simultaneously in the hand group and in the trick group, yet the
call succeeds rather than failing. -/
theorem C3_counterexample :
    (Ownerships.from_trick CARDS [⟨0, 0⟩] [] []).isSome = true
    ∧ (⟨0, 0⟩ : Card) ∈ CARDS
    ∧ (⟨0, 0⟩ : Card) ∈ ([⟨0, 0⟩] : List Card) := by
  refine ⟨?_, by decide, by decide⟩
  have hu : Ownerships.unionIsDeck CARDS [⟨0, 0⟩] [] [] = true := by decide
  simp [Ownerships.from_trick, hu]

/-- Claim C3 (amended): `from_trick` fails exactly when the union of
the four supplied groups, as a set, differs from the full 52-card
deck; missing deck cards make it fail, but overlapping groups whose
union still covers the deck are accepted. -/
theorem C3_from_trick_fails_iff (hand trick played unseen : List Card) :
    Ownerships.from_trick hand trick played unseen = none
      ↔ ¬ (∀ c : Card,
            (c ∈ played ∨ c ∈ trick ∨ c ∈ hand ∨ c ∈ unseen) ↔ c ∈ CARDS) := by
  rw [← unionIsDeck_eq_true_iff]
  unfold Ownerships.from_trick
  cases hb : Ownerships.unionIsDeck hand trick played unseen <;> simp [hb]

/-- Claim C9 (counterexample): the card (0,0) placed in both the hand
group and the trick group is accepted, and its row sums to 1, not to
the 0 the claim prescribes for trick cards. -/
theorem C9_counterexample :
    (Ownerships.from_trick CARDS [⟨0, 0⟩] [] []).isSome = true
    ∧ (⟨0, 0⟩ : Card) ∈ ([⟨0, 0⟩] : List Card)
    ∧ (Ownerships.rowOf CARDS [⟨0, 0⟩] [] ⟨0, 0⟩).sum = 1 := by
  refine ⟨?_, by decide, ?_⟩
  · have hu : Ownerships.unionIsDeck CARDS [⟨0, 0⟩] [] [] = true := by decide
    simp [Ownerships.from_trick, hu]
  · have hmem : (⟨0, 0⟩ : Card) ∈ CARDS := by decide
    simp [Ownerships.rowOf, hmem]

/-- Claim C9 (amended): for every accepted input, every row of the
returned matrix sums exactly to 0 or 1 (never more): 1 for hand cards
and for unassigned cards, 0 for trick or played cards that are not
also hand cards. -/
theorem C9_row_sums (hand trick played unseen : List Card)
    (M : List (List ℚ))
    (hM : Ownerships.from_trick hand trick played unseen = some M) :
    (∀ row ∈ M, row.sum = 0 ∨ row.sum = 1)
    ∧ (∀ c : Card, c ∈ hand → (Ownerships.rowOf hand trick played c).sum = 1)
    ∧ (∀ c : Card, c ∉ hand → (c ∈ trick ∨ c ∈ played) →
        (Ownerships.rowOf hand trick played c).sum = 0)
    ∧ (∀ c : Card, c ∉ hand → c ∉ trick → c ∉ played →
        (Ownerships.rowOf hand trick played c).sum = 1) := by
  have hsum : ∀ c : Card,
      (Ownerships.rowOf hand trick played c).sum = 0
        ∨ (Ownerships.rowOf hand trick played c).sum = 1 := by
    intro c
    unfold Ownerships.rowOf
    split
    · right; norm_num
    · split
      · left; norm_num
      · right; norm_num
  refine ⟨?_, ?_, ?_, ?_⟩
  · intro row hrow
    have hmap : M = CARDS.map (Ownerships.rowOf hand trick played) := by
      unfold Ownerships.from_trick at hM
      split at hM
      · exact (Option.some.injEq _ _ ▸ hM).symm
      · cases hM
    rw [hmap] at hrow
    obtain ⟨c, -, rfl⟩ := List.mem_map.mp hrow
    exact hsum c
  · intro c hc
    simp [Ownerships.rowOf, hc]
  · intro c hc1 hc2
    simp [Ownerships.rowOf, hc1, hc2]
  · intro c hc1 hc2 hc3
    simp [Ownerships.rowOf, hc1, hc2, hc3]
    norm_num

theorem C9_witness :
    Ownerships.from_trick CARDS [] [] []
        = some (CARDS.map (Ownerships.rowOf CARDS [] []))
    ∧ ((∀ row ∈ CARDS.map (Ownerships.rowOf CARDS [] []),
          row.sum = 0 ∨ row.sum = 1)
      ∧ (∀ c : Card, c ∈ CARDS → (Ownerships.rowOf CARDS [] [] c).sum = 1)
      ∧ (∀ c : Card, c ∉ CARDS → (c ∈ ([] : List Card) ∨ c ∈ ([] : List Card)) →
          (Ownerships.rowOf CARDS [] [] c).sum = 0)
      ∧ (∀ c : Card, c ∉ CARDS → c ∉ ([] : List Card) → c ∉ ([] : List Card) →
          (Ownerships.rowOf CARDS [] [] c).sum = 1)) :=
  ⟨rfl, C9_row_sums CARDS [] [] [] _ rfl⟩

/-- Claim C10: when a card is in the hand group and also in the trick
or played group (an input `from_trick` accepts when the union covers
the deck), hand membership wins: its row in the returned matrix is
`[1, 0, 0, 0]`, not all-zero. -/
theorem C10_hand_precedence (hand trick played unseen : List Card)
    (M : List (List ℚ)) (c : Card)
    (hM : Ownerships.from_trick hand trick played unseen = some M)
    (hc : c ∈ CARDS) (hh : c ∈ hand) (_ht : c ∈ trick ∨ c ∈ played) :
    Ownerships.rowOf hand trick played c = [1, 0, 0, 0]
    ∧ Ownerships.rowOf hand trick played c ∈ M := by
  have hrow : Ownerships.rowOf hand trick played c = [1, 0, 0, 0] := by
    simp [Ownerships.rowOf, hh]
  refine ⟨hrow, ?_⟩
  unfold Ownerships.from_trick at hM
  split at hM
  · cases hM
    exact List.mem_map_of_mem _ hc
  · cases hM

theorem C10_witness :
    Ownerships.from_trick CARDS [⟨0, 0⟩] [] []
        = some (CARDS.map (Ownerships.rowOf CARDS [⟨0, 0⟩] []))
    ∧ (Ownerships.rowOf CARDS [⟨0, 0⟩] [] ⟨0, 0⟩ = [1, 0, 0, 0]
        ∧ Ownerships.rowOf CARDS [⟨0, 0⟩] [] ⟨0, 0⟩
            ∈ CARDS.map (Ownerships.rowOf CARDS [⟨0, 0⟩] [])) :=
  ⟨by rw [Ownerships.from_trick, if_pos (by decide)],
   C10_hand_precedence CARDS [⟨0, 0⟩] [] [] _ ⟨0, 0⟩
     (by rw [Ownerships.from_trick, if_pos (by decide)])
     (by decide) (by decide) (by decide)⟩

/-- Unpacking a successful `Except.map`. -/
theorem except_map_ok {α β γ : Type} (f : α → β) (x : Except γ α) (b : β)
    (h : Except.map f x = .ok b) : ∃ a, x = .ok a ∧ f a = b := by
  cases x with
  | error e => simp [Except.map] at h
  | ok a => exact ⟨a, rfl, by simpa [Except.map] using h⟩

/-- Claim C4 (counterexample): with a full 3-card table of a suit
different from the candidate's, no table card has the candidate's suit
with a higher rank, yet `gets_trick` returns (NEVER, 0), not
(ALWAYS, 0) — the suit-mismatch case fires first. -/
theorem C4_counterexample :
    filter_cards_above [⟨0, 0⟩, ⟨0, 1⟩, ⟨0, 2⟩] 1 0 = []
    ∧ ([(⟨0, 0⟩ : Card), ⟨0, 1⟩, ⟨0, 2⟩] : List Card).length = 3
    ∧ gets_trick (fun _ => 0) ⟨1, 0⟩ [⟨0, 0⟩, ⟨0, 1⟩, ⟨0, 2⟩] [] = .ok (NEVER, 0)
    ∧ (Except.ok (NEVER, (0 : ℚ)) : Except PyError (ℚ × ℚ)) ≠ .ok (ALWAYS, 0) := by
  refine ⟨by decide, by decide, ?_, ?_⟩
  · rw [gets_trick, if_pos (by decide)]
  · intro hx
    rw [Except.ok.injEq, Prod.mk.injEq] at hx
    have hx1 := hx.1
    norm_num [NEVER, ALWAYS] at hx1

/-- Claim C4 (amended): for a 3-card table, if the candidate follows
the lead suit and no table card of the candidate's suit has a higher
rank, `gets_trick` returns (ALWAYS, 0). -/
theorem C4_last_card (penalty : Card → ℚ) (card : Card) (table others : List Card)
    (hlen : table.length = 3)
    (hsuit : card.suit = lead_suit card table)
    (hbeat : filter_cards_above table card.suit card.rank = []) :
    gets_trick penalty card table others = .ok (ALWAYS, 0) := by
  unfold gets_trick
  rw [if_neg (fun hx => hx hsuit), if_neg (fun hx => hx hbeat), if_pos hlen]

theorem C4_witness :
    ([(⟨0, 0⟩ : Card), ⟨0, 1⟩, ⟨0, 2⟩] : List Card).length = 3
    ∧ (⟨0, 3⟩ : Card).suit = lead_suit ⟨0, 3⟩ [⟨0, 0⟩, ⟨0, 1⟩, ⟨0, 2⟩]
    ∧ filter_cards_above [⟨0, 0⟩, ⟨0, 1⟩, ⟨0, 2⟩] 0 3 = []
    ∧ gets_trick (fun _ => 0) ⟨0, 3⟩ [⟨0, 0⟩, ⟨0, 1⟩, ⟨0, 2⟩] [] = .ok (ALWAYS, 0) :=
  ⟨by decide, by decide, by decide,
   C4_last_card (fun _ => 0) ⟨0, 3⟩ [⟨0, 0⟩, ⟨0, 1⟩, ⟨0, 2⟩] []
     (by decide) (by decide) (by decide)⟩

/-- Claim C1: for a table of at most 3 cards, every successful result
of `gets_trick` has its first component in [0, 1]; it is NEVER, ALWAYS,
or a power `q ^ m` with `0 < q < 1` and `m >= 1`. -/
theorem C1_prob_in_unit (penalty : Card → ℚ) (card : Card) (table others : List Card)
    (hlen : table.length ≤ 3) (p e : ℚ)
    (hok : gets_trick penalty card table others = .ok (p, e)) :
    (0 ≤ p ∧ p ≤ 1)
    ∧ (p = NEVER ∨ p = ALWAYS
        ∨ ∃ q : ℚ, ∃ m : Nat, 0 < q ∧ q < 1 ∧ 1 ≤ m ∧ p = q ^ m) := by
  unfold gets_trick at hok
  split at hok
  · simp only [Except.ok.injEq, Prod.mk.injEq] at hok
    obtain ⟨h1, -⟩ := hok
    subst h1
    exact ⟨⟨by norm_num [NEVER], by norm_num [NEVER]⟩, Or.inl rfl⟩
  · split at hok
    · simp only [Except.ok.injEq, Prod.mk.injEq] at hok
      obtain ⟨h1, -⟩ := hok
      subst h1
      exact ⟨⟨by norm_num [NEVER], by norm_num [NEVER]⟩, Or.inl rfl⟩
    · split at hok
      · simp only [Except.ok.injEq, Prod.mk.injEq] at hok
        obtain ⟨h1, -⟩ := hok
        subst h1
        exact ⟨⟨by norm_num [ALWAYS], by norm_num [ALWAYS]⟩, Or.inr (Or.inl rfl)⟩
      · rename_i hne3
        dsimp only at hok
        split at hok
        · simp only [Except.ok.injEq, Prod.mk.injEq] at hok
          obtain ⟨h1, -⟩ := hok
          subst h1
          exact ⟨⟨by norm_num [ALWAYS], by norm_num [ALWAYS]⟩, Or.inr (Or.inl rfl)⟩
        · split at hok
          · simp only [Except.ok.injEq, Prod.mk.injEq] at hok
            obtain ⟨h1, -⟩ := hok
            subst h1
            exact ⟨⟨by norm_num [NEVER], by norm_num [NEVER]⟩, Or.inl rfl⟩
          · obtain ⟨q, hq, hfq⟩ := except_map_ok _ _ _ hok
            simp only [Prod.mk.injEq] at hfq
            obtain ⟨h1, -⟩ := hfq
            subst h1
            have hn : (1 : ℤ) ≤ 4 - (table.length : ℤ) - 1 := by omega
            have hb := p_gets_trick_ok_bounds _ _ _ hn q hq
            simpa [NEVER, ALWAYS] using hb

theorem C1_witness :
    ([] : List Card).length ≤ 3
    ∧ ((0 ≤ (27 / 64 : ℚ) ∧ (27 / 64 : ℚ) ≤ 1)
        ∧ ((27 / 64 : ℚ) = NEVER ∨ (27 / 64 : ℚ) = ALWAYS
            ∨ ∃ q : ℚ, ∃ m : Nat, 0 < q ∧ q < 1 ∧ 1 ≤ m ∧ (27 / 64 : ℚ) = q ^ m)) :=
  ⟨by decide,
   C1_prob_in_unit (fun _ => 0) ⟨0, 5⟩ [] [⟨0, 6⟩, ⟨0, 1⟩, ⟨0, 2⟩, ⟨0, 3⟩]
     (by decide) (27 / 64) 0
     (by norm_num [gets_trick, p_gets_trick, lead_suit, filter_cards_above,
        filter_cards_below, List.filter, ALWAYS, NEVER, Except.map])⟩

/-- Claim C7: whenever `gets_trick` reaches the opponent-threat
analysis (lead suit followed, no beating table card, fewer than 3
table cards) and returns through the above-empty or the uncertain
branch, the second component equals the spec's formula: the mean
penalty of the `below` cards times `nIncoming = 4 - len(tableCards) - 1`,
and 0 when `below` is empty. -/
theorem C7_expected_penalty (penalty : Card → ℚ) (card : Card) (table others : List Card)
    (hsuit : card.suit = lead_suit card table)
    (hbeat : filter_cards_above table card.suit card.rank = [])
    (hlen : table.length < 3)
    (hbranch : filter_cards_above others card.suit card.rank = []
        ∨ 4 ≤ others.length) :
    ∃ p : ℚ,
      gets_trick penalty card table others
        = .ok (p, spec_expected_incoming_penalty penalty card table others) := by
  have hne3 : ¬ table.length = 3 := by omega
  unfold gets_trick
  rw [if_neg (fun hx => hx hsuit), if_neg (fun hx => hx hbeat), if_neg hne3]
  dsimp only
  have hexp :
      (if (filter_cards_below others card.suit card.rank).map penalty ≠ ([] : List ℚ)
        then ((filter_cards_below others card.suit card.rank).map penalty).sum
              / ((((filter_cards_below others card.suit card.rank).map penalty).length : ℕ) : ℚ)
              * (((4 - (table.length : ℤ) - 1) : ℤ) : ℚ)
        else 0)
      = spec_expected_incoming_penalty penalty card table others := by
    unfold spec_expected_incoming_penalty
    by_cases hb : filter_cards_below others card.suit card.rank = []
    · simp [hb]
    · simp only [ne_eq, List.map_eq_nil_iff, hb, not_false_eq_true, if_true, if_neg hb,
        List.length_map]
      push_cast
      ring
  by_cases habove : filter_cards_above others card.suit card.rank = []
  · rw [if_pos habove]
    refine ⟨ALWAYS, ?_⟩
    simp only [Except.ok.injEq, Prod.mk.injEq]
    exact ⟨by trivial, hexp⟩
  · have hothers : 4 ≤ others.length := by
      rcases hbranch with hb | hb
      · exact absurd hb habove
      · exact hb
    rw [if_neg habove, if_neg (by omega : ¬ others.length < 4)]
    have hlenA : (filter_cards_above others card.suit card.rank).length ≠ 0 := by
      simpa [List.length_eq_zero] using habove
    obtain ⟨q, hq⟩ := p_gets_trick_ok
      (filter_cards_above others card.suit card.rank).length
      (filter_cards_below others card.suit card.rank).length
      (4 - (table.length : ℤ) - 1) (by omega) hlenA
    refine ⟨q, ?_⟩
    rw [hq]
    simp only [Except.map, Except.ok.injEq, Prod.mk.injEq]
    exact ⟨by trivial, hexp⟩

theorem C7_witness :
    (⟨0, 5⟩ : Card).suit = lead_suit ⟨0, 5⟩ [⟨0, 0⟩]
    ∧ filter_cards_above [⟨0, 0⟩] 0 5 = []
    ∧ ([(⟨0, 0⟩ : Card)] : List Card).length < 3
    ∧ (filter_cards_above [(⟨1, 0⟩ : Card)] 0 5 = []
        ∨ 4 ≤ ([(⟨1, 0⟩ : Card)] : List Card).length)
    ∧ ∃ p : ℚ,
        gets_trick (fun _ => 5) ⟨0, 5⟩ [⟨0, 0⟩] [⟨1, 0⟩]
          = .ok (p, spec_expected_incoming_penalty (fun _ => 5) ⟨0, 5⟩ [⟨0, 0⟩] [⟨1, 0⟩]) :=
  ⟨by decide, by decide, by decide, Or.inl (by decide),
   C7_expected_penalty (fun _ => 5) ⟨0, 5⟩ [⟨0, 0⟩] [⟨1, 0⟩]
     (by decide) (by decide) (by decide) (Or.inl (by decide))⟩

example : filter_cards_above [⟨0, 5⟩, ⟨0, 1⟩, ⟨1, 9⟩] 0 2 = [⟨0, 5⟩] := by decide

example : filter_cards_below [⟨0, 5⟩, ⟨0, 1⟩, ⟨1, 9⟩] 0 2 = [⟨0, 1⟩, ⟨1, 9⟩] := by decide

example : p_gets_trick 1 3 2 = .ok (9 / 16) := by
  norm_num [p_gets_trick]

example :
    gets_trick (fun _ => 0) ⟨0, 5⟩ [] [⟨0, 6⟩, ⟨0, 1⟩, ⟨0, 2⟩, ⟨0, 3⟩]
      = .ok (27 / 64, 0) := by
  norm_num [gets_trick, p_gets_trick, lead_suit, filter_cards_above, filter_cards_below,
    List.filter, ALWAYS, NEVER, Except.map]

end HeartsGym
